import Mathlib

set_option maxHeartbeats 1000000

/-!
Verification development for `src/js/service-worker.js`: the Firestore value
codec (`firestore.createField`, `firestore.parseField`, `firestore.parseMap`),
the batch-fetch response handling (`firestore.getDocumentsForIds`), and the
structured-query builder (`QueryBuilder`).

Modelling conventions:
* JavaScript numbers are modelled as rationals (`Rat`).  The codec observes a
  number only through `Number.isInteger` (fractional part zero, i.e. `den = 1`),
  `toString`, `parseInt` and `parseFloat`; since `parseInt` inverts `toString`
  on integers and `parseFloat` inverts `toString` on finite numbers, the
  string payloads `integerValue` / `doubleValue` are modelled by the numeric
  values they encode.  Such strings are never empty, hence always truthy.
* A JavaScript value that may be `null` is modelled as an `Option`; the
  `TypeError` thrown when a property of `null` is read is modelled by an
  `Option` result (`none` = the call throws).
* JavaScript objects are string-keyed maps with insertion order, modelled as
  association lists.
-/

/-- Native JavaScript values as they reach the codec.  Besides the values the
spec calls representable (`null`, booleans, numbers, strings, lists, maps)
this includes the unsupported shapes the code can be handed: `undef` is
`undefined`, `symbol` is a `Symbol` (or any other non-object primitive the
dispatch does not recognise, such as a bigint), and `func` is a function
object (a function has no own enumerable properties, satisfies
`instanceof Object`, and does not satisfy `instanceof Array` or the
`typeof` tests for number/boolean/string). -/
inductive NativeValue where
  | null
  | undef
  | symbol
  | func
  | bool (b : Bool)
  | num (q : Rat)
  | str (s : String)
  | list (elems : List NativeValue)
  | map (entries : List (String × NativeValue))

/-- A wire value: the JSON object a Firestore field is transported as.  It is
a plain JavaScript object, so several variant keys may be populated at once
and each key may be absent (`none`).  `mapValue` is an object holding an
optional `fields` object; `arrayValue` is an object holding an optional
`values` array.  Elements and map entries are `Option WireValue` because the
codec itself can place JavaScript `null` there (the fallback branch of
`createField`). -/
inductive WireValue where
  | mk (integerValue : Option Int) (doubleValue : Option Rat)
      (booleanValue : Option Bool) (stringValue : Option String)
      (mapValue : Option (Option (List (String × Option WireValue))))
      (arrayValue : Option (Option (List (Option WireValue)))) : WireValue

def WireValue.integerValue : WireValue → Option Int
  | .mk v _ _ _ _ _ => v

def WireValue.doubleValue : WireValue → Option Rat
  | .mk _ v _ _ _ _ => v

def WireValue.booleanValue : WireValue → Option Bool
  | .mk _ _ v _ _ _ => v

def WireValue.stringValue : WireValue → Option String
  | .mk _ _ _ v _ _ => v

def WireValue.mapValue : WireValue → Option (Option (List (String × Option WireValue)))
  | .mk _ _ _ _ v _ => v

def WireValue.arrayValue : WireValue → Option (Option (List (Option WireValue)))
  | .mk _ _ _ _ _ v => v

namespace firestore

mutual

/-- Embeds `firestore.createField` (service-worker.js lines 16-24).  The JS
if-chain tests, in order: `Number.isInteger(value)`, `typeof value ===
"number"`, `typeof value === "boolean"`, `typeof value === "string"`,
`value instanceof Array`, `value instanceof Object`; otherwise it returns
JavaScript `null` (modelled as `none`).  The constructors of `NativeValue`
are disjoint, so the match arms reproduce the chain: a rational with
denominator 1 is exactly a number with no fractional part
(`Number.isInteger`); a function object reaches the `instanceof Object`
branch and `Object.entries` of a function is empty. -/
def createField : NativeValue → Option WireValue
  | .num q =>
      if q.den = 1 then some (.mk (some q.num) none none none none none)
      else some (.mk none (some q) none none none none)
  | .bool b => some (.mk none none (some b) none none none)
  | .str s => some (.mk none none none (some s) none none)
  | .list l => some (.mk none none none none none (some (some (createFields l))))
  | .map m => some (.mk none none none none (some (some (createMapFields m))) none)
  | .func => some (.mk none none none none (some (some [])) none)
  | .null => none
  | .undef => none
  | .symbol => none

/-- Elementwise `value.map(firestore.createField)` from the `Array` branch. -/
def createFields : List NativeValue → List (Option WireValue)
  | [] => []
  | v :: vs => createField v :: createFields vs

/-- Entrywise `Object.entries(value).map(([key, value]) => [key,
firestore.createField(value)])` from the `Object` branch. -/
def createMapFields : List (String × NativeValue) → List (String × Option WireValue)
  | [] => []
  | (k, v) :: rest => (k, createField v) :: createMapFields rest

end

mutual

/-- Embeds `firestore.parseField` (service-worker.js lines 7-15) applied to a
possibly-`null` field.  Reading `field.integerValue` on `null` throws a
`TypeError`, modelled by the result `none`.  Each `if` tests the truthiness
of the payload: an integer/double payload is a non-empty string, always
truthy; a boolean payload is truthy only when `true`; a string payload is
truthy only when non-empty; a `mapValue` object is always truthy; the array
branch tests `field.arrayValue?.values`, which is truthy exactly when
`arrayValue` is present and carries a `values` array (an empty array is
truthy in JavaScript).  When every test fails the function returns `null`,
i.e. `some .null`. -/
def parseField : Option WireValue → Option NativeValue
  | none => none
  | some (.mk iv dv bv sv mv av) =>
    match iv with
    | some n => some (.num (n : Rat))
    | none =>
      match dv with
      | some q => some (.num q)
      | none =>
        match bv with
        | some true => some (.bool true)
        | _ =>
          match sv with
          | some s =>
            if s.isEmpty then
              match mv with
              | some mfields => (parseMap mfields).map NativeValue.map
              | none =>
                match av with
                | some (some vs) => (parseFields vs).map NativeValue.list
                | _ => some NativeValue.null
            else some (.str s)
          | none =>
            match mv with
            | some mfields => (parseMap mfields).map NativeValue.map
            | none =>
              match av with
              | some (some vs) => (parseFields vs).map NativeValue.list
              | _ => some NativeValue.null

/-- Embeds `firestore.parseMap` (service-worker.js lines 25-29).  Its argument
is the `fields` property of a `mapValue` object, which may be absent:
`for (const key in undefined)` iterates zero times, so an absent `fields`
yields the empty map.  A thrown `TypeError` from `parseField` aborts the
whole loop (`none`). -/
def parseMap : Option (List (String × Option WireValue)) → Option (List (String × NativeValue))
  | none => some []
  | some fs => parseMapFields fs

/-- The loop body of `parseMap`: `result[key] = firestore.parseField(map.fields[key])`
for each key in insertion order. -/
def parseMapFields : List (String × Option WireValue) → Option (List (String × NativeValue))
  | [] => some []
  | (k, f) :: rest =>
    match parseField f with
    | none => none
    | some v => (parseMapFields rest).map (fun r => (k, v) :: r)

/-- Elementwise `field.arrayValue.values.map(firestore.parseField)`; a thrown
`TypeError` from any element aborts the whole `map`. -/
def parseFields : List (Option WireValue) → Option (List NativeValue)
  | [] => some []
  | f :: rest =>
    match parseField f with
    | none => none
    | some v => (parseFields rest).map (fun r => v :: r)

end

end firestore

mutual

/-- Values for which the codec round-trips: numbers, the boolean `true`,
non-empty strings, and lists/maps built from such values.  The excluded
values are exactly the ones the code loses: `null` (and the other
unsupported shapes) encode to the JavaScript `null` fallback, whose decode
throws, and `false` / the empty string are falsy, so `parseField` skips
their populated variant and falls through to `null`. -/
def Roundtrippable : NativeValue → Bool
  | .bool b => b
  | .num _ => true
  | .str s => !s.isEmpty
  | .list l => roundtrippableList l
  | .map m => roundtrippableMap m
  | .null => false
  | .undef => false
  | .symbol => false
  | .func => false

/-- Every element of the list is `Roundtrippable`. -/
def roundtrippableList : List NativeValue → Bool
  | [] => true
  | v :: vs => Roundtrippable v && roundtrippableList vs

/-- Every value of the association list is `Roundtrippable`. -/
def roundtrippableMap : List (String × NativeValue) → Bool
  | [] => true
  | (_, v) :: rest => Roundtrippable v && roundtrippableMap rest

end

mutual

/-- Decode inverts encode on `Roundtrippable` values. -/
theorem parse_create : ∀ (v : NativeValue), Roundtrippable v = true →
    firestore.parseField (firestore.createField v) = some v
  | .num q, _ => by
      by_cases hq : q.den = 1
      · simp [firestore.createField, firestore.parseField, hq,
          (Rat.den_eq_one_iff q).mp hq]
      · simp [firestore.createField, firestore.parseField, hq]
  | .bool b, h => by
      rw [Roundtrippable] at h
      subst h
      simp [firestore.createField, firestore.parseField]
  | .str s, h => by
      rw [Roundtrippable] at h
      simp only [Bool.not_eq_true'] at h
      simp [firestore.createField, firestore.parseField, h]
  | .list l, h => by
      rw [Roundtrippable] at h
      simp [firestore.createField, firestore.parseField, parse_creates l h]
  | .map m, h => by
      rw [Roundtrippable] at h
      simp [firestore.createField, firestore.parseField, firestore.parseMap,
        parse_createMap m h]

/-- Elementwise version of `parse_create` for array payloads. -/
theorem parse_creates : ∀ (l : List NativeValue), roundtrippableList l = true →
    firestore.parseFields (firestore.createFields l) = some l
  | [], _ => by simp [firestore.createFields, firestore.parseFields]
  | v :: vs, h => by
      rw [roundtrippableList, Bool.and_eq_true] at h
      simp [firestore.createFields, firestore.parseFields,
        parse_create v h.1, parse_creates vs h.2]

/-- Entrywise version of `parse_create` for map payloads. -/
theorem parse_createMap : ∀ (m : List (String × NativeValue)), roundtrippableMap m = true →
    firestore.parseMapFields (firestore.createMapFields m) = some m
  | [], _ => by simp [firestore.createMapFields, firestore.parseMapFields]
  | (k, v) :: rest, h => by
      rw [roundtrippableMap, Bool.and_eq_true] at h
      simp [firestore.createMapFields, firestore.parseMapFields,
        parse_create v h.1, parse_createMap rest h.2]

end

/-- C1 (amended): for every representable native value in which every boolean
is `true`, every string is non-empty, and `null` does not occur,
`decode(encode(v))` is value-equal to `v` (in the model the integer/float
sub-distinction is already merged into one number type, so the equality is
exact).  Values containing `false` or the empty string decode to `null`
because `parseField` tests payload truthiness, and encoded `null`s make the
decoder throw. -/
theorem claim1_round_trip (v : NativeValue) (h : Roundtrippable v = true) :
    firestore.parseField (firestore.createField v) = some v :=
  parse_create v h

/-- Witness for C1 at a concrete nested value. -/
theorem claim1_round_trip_witness :
    Roundtrippable (.map [(("n"), .num 3), (("s"), .str ("x")),
      (("l"), .list [.bool true, .num 5])]) = true ∧
    firestore.parseField (firestore.createField (.map [(("n"), .num 3), (("s"), .str ("x")),
      (("l"), .list [.bool true, .num 5])])) =
      some (.map [(("n"), .num 3), (("s"), .str ("x")),
        (("l"), .list [.bool true, .num 5])]) :=
  ⟨by simp [Roundtrippable, roundtrippableMap, roundtrippableList,
      (by decide : ("x" : String).isEmpty = false)],
   claim1_round_trip _ (by
     simp [Roundtrippable, roundtrippableMap, roundtrippableList,
       (by decide : ("x" : String).isEmpty = false)])⟩

/-- C1 counterexample: the claim fails as stated — `false` is a representable
value, but `decode(encode(false))` is `null`, which is not value-equal to
`false`. -/
theorem claim1_counterexample :
    firestore.parseField (firestore.createField (.bool false)) = some NativeValue.null ∧
    some NativeValue.null ≠ some (NativeValue.bool false) :=
  ⟨by simp [firestore.createField, firestore.parseField], by simp⟩

/-- C4: a numeric input with no fractional part (`Number.isInteger`, i.e.
denominator 1 — this includes integer-valued floats such as 5.0) encodes to
the Integer variant carrying the integer (the model of its base-10 string
form), and every other numeric input encodes to the Double variant carrying
the number (the model of its string form). -/
theorem claim4_numeric_tagging (q : Rat) :
    (q.den = 1 → firestore.createField (.num q) =
      some (.mk (some q.num) none none none none none)) ∧
    (q.den ≠ 1 → firestore.createField (.num q) =
      some (.mk none (some q) none none none none)) := by
  constructor <;> intro h <;> simp [firestore.createField, h]

/-- Witness for C4: 5 is tagged Integer, 11/2 (= 5.5) is tagged Double. -/
theorem claim4_numeric_tagging_witness :
    firestore.createField (.num 5) = some (.mk (some 5) none none none none none) ∧
    firestore.createField (.num (11/2)) =
      some (.mk none (some (11/2)) none none none none) :=
  ⟨(claim4_numeric_tagging 5).1 (by decide),
   (claim4_numeric_tagging (11/2)).2 (by norm_num)⟩

/-- C5 counterexample: a function is not a recognized primitive, list, or map,
yet encoding it does not yield the Null result — a function satisfies
`instanceof Object`, so `createField` returns a Map variant with the
function's (empty) enumerable entries. -/
theorem claim5_counterexample :
    firestore.createField NativeValue.func =
      some (.mk none none none none (some (some [])) none) ∧
    firestore.createField NativeValue.func ≠ none := by
  constructor <;> simp [firestore.createField]

/-- C5 (amended): encode is a total function with no side effects and never
raises; unsupported inputs that fail every `typeof`/`instanceof` test
(`undefined`, symbols and other unrecognised primitives — and `null`
itself) produce the Null result, while an unsupported object-like input
such as a function falls into the `instanceof Object` branch and encodes
as an empty Map variant. -/
theorem claim5_total_fallback :
    firestore.createField NativeValue.undef = none ∧
    firestore.createField NativeValue.symbol = none ∧
    firestore.createField NativeValue.null = none ∧
    firestore.createField NativeValue.func =
      some (.mk none none none none (some (some [])) none) := by
  refine ⟨?_, ?_, ?_, ?_⟩ <;> simp [firestore.createField]

/-- C9: an Array variant whose `values` list is present but empty decodes to
the empty native list, not to null (an empty JavaScript array is truthy). -/
theorem claim9_empty_array :
    firestore.parseField (some (.mk none none none none none (some (some [])))) =
      some (NativeValue.list []) ∧
    some (NativeValue.list []) ≠ some NativeValue.null := by
  constructor
  · simp [firestore.parseField, firestore.parseFields]
  · simp

/-- C10: a wire value whose only populated variant is Boolean holding `false`
decodes to null, and one whose only populated variant is String holding the
empty string decodes to null — the detection tests the payload's truthiness,
not the presence of the tag. -/
theorem claim10_falsy_payloads :
    firestore.parseField (some (.mk none none (some false) none none none)) =
      some NativeValue.null ∧
    firestore.parseField (some (.mk none none none (some ("")) none none)) =
      some NativeValue.null ∧
    some NativeValue.null ≠ some (NativeValue.bool false) ∧
    some NativeValue.null ≠ some (NativeValue.str ("")) := by
  refine ⟨?_, ?_, ?_, ?_⟩ <;>
    simp [firestore.parseField, (by decide : ("" : String).isEmpty = true)]

/-- Reference decoder written from the spec's wording for C3, for comparison
with the implementation: the variant clauses in the spec's fixed priority
order Integer, Double, Boolean, String, Map, Array.  A clause is `none` when
its variant does not fire and `some r` when it fires with decode outcome `r`
(the outcome itself is an `Option` because decoding a populated Map or Array
payload can throw on an embedded JavaScript `null`).  A clause fires when its
payload is truthy: Integer/Double whenever present (their string payloads are
non-empty), Boolean only on `true`, String only when non-empty, Map whenever
present, Array when its `values` list is present. -/
def variantClauses (f : WireValue) : List (Option (Option NativeValue)) :=
  [ f.integerValue.map (fun n => some (NativeValue.num (n : Rat))),
    f.doubleValue.map (fun q => some (NativeValue.num q)),
    match f.booleanValue with
    | some true => some (some (NativeValue.bool true))
    | _ => none,
    match f.stringValue with
    | some s => if s.isEmpty then none else some (some (NativeValue.str s))
    | none => none,
    f.mapValue.map (fun mf => (firestore.parseMap mf).map NativeValue.map),
    match f.arrayValue with
    | some (some vs) => some ((firestore.parseFields vs).map NativeValue.list)
    | _ => none ]

/-- The first clause of `variantClauses` that fires, defaulting to null. -/
def decodePriority (f : WireValue) : Option NativeValue :=
  ((variantClauses f).findSome? id).getD (some NativeValue.null)

/-- C3 (amended): decode tests the variants in the fixed priority order
Integer, Double, Boolean, String, Map, Array and returns the native value of
the first variant populated with a truthy payload (Boolean `false` and the
empty String are skipped as if absent; a Map counts whenever present; an
Array counts when its `values` list is present, even empty); when no variant
passes — in particular for the empty/untagged wire value — decode returns
null. -/
theorem claim3_priority_dispatch :
    (∀ f : WireValue, firestore.parseField (some f) = decodePriority f) ∧
    firestore.parseField (some (.mk none none none none none none)) =
      some NativeValue.null := by
  constructor
  · rintro ⟨iv, dv, bv, sv, mv, av⟩
    rcases iv with _ | n
    case mk.some =>
      simp [firestore.parseField.eq_def, decodePriority, variantClauses,
        WireValue.integerValue, List.findSome?]
    rcases dv with _ | q
    case mk.none.some =>
      simp [firestore.parseField.eq_def, decodePriority, variantClauses,
        WireValue.integerValue, WireValue.doubleValue, List.findSome?]
    rcases bv with _ | b
    case mk.none.none.some =>
      cases b <;>
        · rcases sv with _ | s
          · rcases mv with _ | mf
            · rcases av with _ | (_ | vs) <;>
                simp [firestore.parseField.eq_def, decodePriority, variantClauses,
                  WireValue.integerValue, WireValue.doubleValue, WireValue.booleanValue,
                  WireValue.stringValue, WireValue.mapValue, WireValue.arrayValue,
                  List.findSome?]
            · simp [firestore.parseField.eq_def, decodePriority, variantClauses,
                WireValue.integerValue, WireValue.doubleValue, WireValue.booleanValue,
                WireValue.stringValue, WireValue.mapValue, WireValue.arrayValue,
                List.findSome?]
          · by_cases hs : s.isEmpty
            · rcases mv with _ | mf
              · rcases av with _ | (_ | vs) <;>
                  simp [firestore.parseField.eq_def, decodePriority, variantClauses,
                    WireValue.integerValue, WireValue.doubleValue, WireValue.booleanValue,
                    WireValue.stringValue, WireValue.mapValue, WireValue.arrayValue,
                    List.findSome?, hs]
              · simp [firestore.parseField.eq_def, decodePriority, variantClauses,
                  WireValue.integerValue, WireValue.doubleValue, WireValue.booleanValue,
                  WireValue.stringValue, WireValue.mapValue, WireValue.arrayValue,
                  List.findSome?, hs]
            · simp [firestore.parseField.eq_def, decodePriority, variantClauses,
                WireValue.integerValue, WireValue.doubleValue, WireValue.booleanValue,
                WireValue.stringValue, WireValue.mapValue, WireValue.arrayValue,
                List.findSome?, hs]
    case mk.none.none.none =>
      rcases sv with _ | s
      · rcases mv with _ | mf
        · rcases av with _ | (_ | vs) <;>
            simp [firestore.parseField.eq_def, decodePriority, variantClauses,
              WireValue.integerValue, WireValue.doubleValue, WireValue.booleanValue,
              WireValue.stringValue, WireValue.mapValue, WireValue.arrayValue,
              List.findSome?]
        · simp [firestore.parseField.eq_def, decodePriority, variantClauses,
            WireValue.integerValue, WireValue.doubleValue, WireValue.booleanValue,
            WireValue.stringValue, WireValue.mapValue, WireValue.arrayValue,
            List.findSome?]
      · by_cases hs : s.isEmpty
        · rcases mv with _ | mf
          · rcases av with _ | (_ | vs) <;>
              simp [firestore.parseField.eq_def, decodePriority, variantClauses,
                WireValue.integerValue, WireValue.doubleValue, WireValue.booleanValue,
                WireValue.stringValue, WireValue.mapValue, WireValue.arrayValue,
                List.findSome?, hs]
          · simp [firestore.parseField.eq_def, decodePriority, variantClauses,
              WireValue.integerValue, WireValue.doubleValue, WireValue.booleanValue,
              WireValue.stringValue, WireValue.mapValue, WireValue.arrayValue,
              List.findSome?, hs]
        · simp [firestore.parseField.eq_def, decodePriority, variantClauses,
            WireValue.integerValue, WireValue.doubleValue, WireValue.booleanValue,
            WireValue.stringValue, WireValue.mapValue, WireValue.arrayValue,
            List.findSome?, hs]
  · simp [firestore.parseField]

/-- C3 counterexample: the String variant of this wire value is populated
(with the empty string), yet decode returns null rather than the
corresponding native value. -/
theorem claim3_counterexample :
    firestore.parseField (some (.mk none none none (some ("")) none none)) =
      some NativeValue.null ∧
    some NativeValue.null ≠ some (NativeValue.str ("")) := by
  constructor
  · simp [firestore.parseField, (by decide : ("" : String).isEmpty = true)]
  · simp

/-- The leaf comparison object built by `QueryBuilder.where` (line 158):
`{ fieldFilter: { field: { fieldPath: field }, op, value: firestore.createField(value) } }`. -/
structure FieldFilterData where
  fieldPath : String
  op : String
  value : Option WireValue

/-- The `where` member of the query descriptor: either a single
`fieldFilter` leaf or a `compositeFilter` with an operator and a list of
conjunct filters. -/
inductive WhereFilter where
  | fieldFilter (data : FieldFilterData)
  | compositeFilter (op : String) (filters : List WhereFilter)

/-- One `{ field: { fieldPath }, direction }` entry of the `orderBy` list. -/
structure OrderSpec where
  fieldPath : String
  direction : String

/-- The builder's `this.query` object.  All members are initially absent
(`constructor() { this.query = {} }`). -/
structure Query where
  «where» : Option WhereFilter
  orderBy : Option (List OrderSpec)
  limit : Option Int
  offset : Option Int

namespace QueryBuilder

/-- The state after `new QueryBuilder()`. -/
def new : Query := ⟨none, none, none, none⟩

/-- Embeds `QueryBuilder.where` (lines 157-163): if no filter exists the leaf
becomes the filter; if the existing filter is a leaf (`this.query.where.fieldFilter`
is truthy) it is replaced by `{ compositeFilter: { op: "AND", filters: [old, new] } }`;
otherwise the leaf is pushed onto `this.query.where.compositeFilter.filters`. -/
def «where» (q : Query) (field op : String) (value : NativeValue) : Query :=
  let fieldFilter := WhereFilter.fieldFilter ⟨field, op, firestore.createField value⟩
  match q.«where» with
  | none => { q with «where» := some fieldFilter }
  | some (WhereFilter.fieldFilter d) =>
      { q with «where» := some (.compositeFilter ("AND")
          [WhereFilter.fieldFilter d, fieldFilter]) }
  | some (WhereFilter.compositeFilter cop fs) =>
      { q with «where» := some (.compositeFilter cop (fs ++ [fieldFilter])) }

/-- Embeds `QueryBuilder.orderBy` (lines 169-173): initialise the list if it
is absent (`!this.query.orderBy`; note an empty array is truthy, so an
existing empty list is kept), then push the pair. -/
def orderBy (q : Query) (field direction : String) : Query :=
  let ob := match q.orderBy with
    | none => []
    | some l => l
  { q with orderBy := some (ob ++ [⟨field, direction⟩]) }

/-- Embeds `QueryBuilder.limit` (lines 178-181): overwrite `this.query.limit`. -/
def limit (q : Query) (limit : Int) : Query := { q with limit := some limit }

/-- Embeds `QueryBuilder.setOffset` (lines 186-189): overwrite `this.query.offset`. -/
def setOffset (q : Query) (offset : Int) : Query := { q with offset := some offset }

/-- Embeds `QueryBuilder.build` (lines 190-192): return `this.query` itself —
the live state, not a copy. -/
def build (q : Query) : Query := q

end QueryBuilder

/-- The arguments of one `where` call. -/
structure WhereCall where
  field : String
  op : String
  value : NativeValue

/-- The leaf filter a `where` call constructs from its arguments. -/
def leafFilter (c : WhereCall) : WhereFilter :=
  .fieldFilter ⟨c.field, c.op, firestore.createField c.value⟩

/-- A chain of `where` calls applied in order. -/
def applyWheres (q : Query) : List WhereCall → Query
  | [] => q
  | c :: cs => applyWheres (QueryBuilder.«where» q c.field c.op c.value) cs

/-- Once the filter is a composite, each further `where` call appends its leaf
to the same composite's conjunct list. -/
theorem applyWheres_composite (cs : List WhereCall) (q : Query) (cop : String)
    (fs : List WhereFilter)
    (h : q.«where» = some (.compositeFilter cop fs)) :
    (applyWheres q cs).«where» =
      some (.compositeFilter cop (fs ++ cs.map leafFilter)) := by
  induction cs generalizing q fs with
  | nil => simpa [applyWheres] using h
  | cons c cs ih =>
    rw [applyWheres]
    have hstep : (QueryBuilder.«where» q c.field c.op c.value).«where»
        = some (.compositeFilter cop (fs ++ [leafFilter c])) := by
      simp [QueryBuilder.«where», h, leafFilter]
    rw [ih _ _ hstep]
    simp

/-- C2: the first `where` call installs the single leaf comparison as the
filter (not a composite); from the second call on, the filter is one flat
AND-composite holding exactly the leaves of all calls so far, in insertion
order — the second call replaces the leaf by a two-conjunct composite and
every later call appends to that same composite. -/
theorem claim2_filter_composition (c1 c2 : WhereCall) (cs : List WhereCall) :
    ((applyWheres QueryBuilder.new [c1]).«where» = some (leafFilter c1)) ∧
    ((applyWheres QueryBuilder.new (c1 :: c2 :: cs)).«where» =
      some (WhereFilter.compositeFilter ("AND")
        (leafFilter c1 :: leafFilter c2 :: cs.map leafFilter))) := by
  constructor
  · simp [applyWheres, QueryBuilder.new, QueryBuilder.«where», leafFilter]
  · have h2 : (applyWheres QueryBuilder.new [c1, c2]).«where»
        = some (.compositeFilter ("AND") [leafFilter c1, leafFilter c2]) := by
      simp [applyWheres, QueryBuilder.new, QueryBuilder.«where», leafFilter]
    have h3 := applyWheres_composite cs _ ("AND") [leafFilter c1, leafFilter c2] h2
    simpa [applyWheres] using h3

/-- One call to any of the builder's four mutating methods. -/
inductive BuilderOp where
  | whereOp (field op : String) (value : NativeValue)
  | orderByOp (field direction : String)
  | limitOp (n : Int)
  | offsetOp (n : Int)

/-- Dispatch one builder call to the corresponding method. -/
def applyOp (q : Query) : BuilderOp → Query
  | .whereOp f o v => QueryBuilder.«where» q f o v
  | .orderByOp f d => QueryBuilder.orderBy q f d
  | .limitOp n => QueryBuilder.limit q n
  | .offsetOp n => QueryBuilder.setOffset q n

/-- A call sequence applied in order. -/
def applyOps (q : Query) : List BuilderOp → Query
  | [] => q
  | op :: ops => applyOps (applyOp q op) ops

/-- The `(field, direction)` pairs of the `orderBy` calls of a sequence, in
call order. -/
def orderPairs : List BuilderOp → List OrderSpec
  | [] => []
  | .orderByOp f d :: ops => ⟨f, d⟩ :: orderPairs ops
  | _ :: ops => orderPairs ops

/-- The value of the last `limit` call of a sequence, if any. -/
def lastLimit : List BuilderOp → Option Int
  | [] => none
  | op :: ops =>
    match lastLimit ops with
    | some m => some m
    | none =>
      match op with
      | .limitOp n => some n
      | _ => none

/-- The value of the last `setOffset` call of a sequence, if any. -/
def lastOffset : List BuilderOp → Option Int
  | [] => none
  | op :: ops =>
    match lastOffset ops with
    | some m => some m
    | none =>
      match op with
      | .offsetOp n => some n
      | _ => none

/-- How a call sequence combines with an existing `orderBy` member: pairs are
appended; the member stays absent only if it was absent and no `orderBy` call
occurs. -/
def combinedOrder (base : Option (List OrderSpec)) (ps : List OrderSpec) :
    Option (List OrderSpec) :=
  match base with
  | some l => some (l ++ ps)
  | none =>
    match ps with
    | [] => none
    | _ => some ps

/-- How a call sequence combines with an existing `limit`/`offset` member:
the last call wins, else the member is kept. -/
def overwrite (base upd : Option Int) : Option Int :=
  match upd with
  | some n => some n
  | none => base

/-- A `where` call leaves the `orderBy`, `limit` and `offset` members
unchanged. -/
theorem where_frame (q : Query) (f o : String) (v : NativeValue) :
    (QueryBuilder.«where» q f o v).orderBy = q.orderBy ∧
    (QueryBuilder.«where» q f o v).limit = q.limit ∧
    (QueryBuilder.«where» q f o v).offset = q.offset := by
  rcases h : q.«where» with _ | w
  · simp [QueryBuilder.«where», h]
  · cases w <;> simp [QueryBuilder.«where», h]

/-- State of the ordering and pagination members after any call sequence,
from any starting state. -/
theorem applyOps_state (ops : List BuilderOp) (q : Query) :
    ((applyOps q ops).orderBy = combinedOrder q.orderBy (orderPairs ops)) ∧
    ((applyOps q ops).limit = overwrite q.limit (lastLimit ops)) ∧
    ((applyOps q ops).offset = overwrite q.offset (lastOffset ops)) := by
  induction ops generalizing q with
  | nil =>
    obtain ⟨w, ob, lim, off⟩ := q
    rcases ob with _ | l <;>
      simp [applyOps, combinedOrder, orderPairs, lastLimit, lastOffset, overwrite]
  | cons op ops ih =>
    obtain ⟨w, ob, lim, off⟩ := q
    rcases op with ⟨f, o, v⟩ | ⟨f, d⟩ | n | n
    · obtain ⟨ho, hl, hof⟩ := where_frame ⟨w, ob, lim, off⟩ f o v
      have h := ih (QueryBuilder.«where» ⟨w, ob, lim, off⟩ f o v)
      rw [applyOps, applyOp]
      refine ⟨?_, ?_, ?_⟩
      · rw [h.1, ho]
        simp [orderPairs]
      · rw [h.2.1, hl]
        rcases hx : lastLimit ops with _ | m <;>
          simp [lastLimit, overwrite, hx]
      · rw [h.2.2, hof]
        rcases hx : lastOffset ops with _ | m <;>
          simp [lastOffset, overwrite, hx]
    · have h := ih (QueryBuilder.orderBy ⟨w, ob, lim, off⟩ f d)
      rw [applyOps, applyOp]
      refine ⟨?_, ?_, ?_⟩
      · rw [h.1]
        rcases ob with _ | l <;>
          rcases hp : orderPairs ops with _ | ⟨p, ps⟩ <;>
            simp [QueryBuilder.orderBy, combinedOrder, orderPairs, hp]
      · rw [h.2.1]
        rcases hx : lastLimit ops with _ | m <;>
          simp [QueryBuilder.orderBy, lastLimit, overwrite, hx]
      · rw [h.2.2]
        rcases hx : lastOffset ops with _ | m <;>
          simp [QueryBuilder.orderBy, lastOffset, overwrite, hx]
    · have h := ih (QueryBuilder.limit ⟨w, ob, lim, off⟩ n)
      rw [applyOps, applyOp]
      refine ⟨?_, ?_, ?_⟩
      · rw [h.1]
        simp [QueryBuilder.limit, orderPairs]
      · rw [h.2.1]
        rcases hx : lastLimit ops with _ | m <;>
          simp [QueryBuilder.limit, lastLimit, overwrite, hx]
      · rw [h.2.2]
        rcases hx : lastOffset ops with _ | m <;>
          simp [QueryBuilder.limit, lastOffset, overwrite, hx]
    · have h := ih (QueryBuilder.setOffset ⟨w, ob, lim, off⟩ n)
      rw [applyOps, applyOp]
      refine ⟨?_, ?_, ?_⟩
      · rw [h.1]
        simp [QueryBuilder.setOffset, orderPairs]
      · rw [h.2.1]
        rcases hx : lastLimit ops with _ | m <;>
          simp [QueryBuilder.setOffset, lastLimit, overwrite, hx]
      · rw [h.2.2]
        rcases hx : lastOffset ops with _ | m <;>
          simp [QueryBuilder.setOffset, lastOffset, overwrite, hx]

/-- C6: starting from a fresh builder, after any call sequence the descriptor
holds the `(field, direction)` pairs of the `orderBy` calls in call order
(absent only when there was no `orderBy` call), and only the last `limit`
value and the last `setOffset` value given. -/
theorem claim6_order_limit_offset (ops : List BuilderOp) :
    ((applyOps QueryBuilder.new ops).orderBy = combinedOrder none (orderPairs ops)) ∧
    ((applyOps QueryBuilder.new ops).limit = lastLimit ops) ∧
    ((applyOps QueryBuilder.new ops).offset = lastOffset ops) := by
  have h := applyOps_state ops QueryBuilder.new
  refine ⟨?_, ?_, ?_⟩
  · rw [h.1]
    simp [QueryBuilder.new]
  · rw [h.2.1]
    rcases hx : lastLimit ops with _ | m <;> simp [overwrite, QueryBuilder.new, hx]
  · rw [h.2.2]
    rcases hx : lastOffset ops with _ | m <;> simp [overwrite, QueryBuilder.new, hx]

/-- C7: `build()` returns the accumulated state itself (`return this.query`),
so it neither resets nor freezes the builder — applying further calls after
`build()` behaves exactly as if `build()` had not been called, and since the
returned descriptor is the live state (the identity, not a copy), the
descriptor observed after later calls is exactly the mutated builder state. -/
theorem claim7_build_live (q : Query) (ops : List BuilderOp) :
    QueryBuilder.build q = q ∧
    applyOps (QueryBuilder.build q) ops = applyOps q ops ∧
    QueryBuilder.build (applyOps q ops) = applyOps q ops :=
  ⟨rfl, rfl, rfl⟩

/-- The `found` document object of a batchGet response entry: a resource
`name`, two timestamp strings, and an optional `fields` object of wire
values (the decoder reads `doc.fields` through `parseMap`). -/
structure RawDoc where
  name : String
  createTime : String
  updateTime : String
  fields : Option (List (String × Option WireValue))

/-- One entry of the batchGet response array: either `{found: {...}}` or
`{missing: path}` (modelled as optional members, as in the JSON). -/
structure BatchEntry where
  found : Option RawDoc
  missing : Option String

/-- The object built for one found document (service-worker.js lines 62-67):
`id` from the trailing path segment of the resource name, the decoded field
map (the JS code spreads `firestore.parseMap(doc)` into the object literal),
and the two timestamps (`new Date(Date.parse(s))` is kept as the timestamp
string, as `Date` itself is outside the model). -/
structure ParsedDoc where
  id : String
  fields : List (String × NativeValue)
  createTime : String
  updateTime : String

namespace firestore

/-- Embeds `doc.name.split("/").pop()`: the trailing path segment.  `split`
never yields an empty array, so `pop` always returns its last element. -/
def lastPathSegment (s : String) : String :=
  ((s.splitOn ("/")).getLast?).getD ("")

/-- The per-document object literal of `getDocumentsForIds` (lines 62-67).
The spread `...firestore.parseMap(doc)` evaluates `parseMap` eagerly while
the object is built, so a decode `TypeError` (a JS-null field value)
propagates out of the literal: the result is `none` and no document object
is constructed. -/
def parseDoc (doc : RawDoc) : Option ParsedDoc :=
  match parseMap doc.fields with
  | none => none
  | some fs =>
    some { id := lastPathSegment doc.name
           fields := fs
           createTime := doc.createTime
           updateTime := doc.updateTime }

/-- Embeds the response handling of `firestore.getDocumentsForIds` (lines
62-67): `json.filter(doc => doc.found).map(({found: doc}) => ({...}))` —
entries without a truthy `found` member are dropped by the filter, each
remaining entry's `found` document is decoded by the mapped object literal,
and a `TypeError` thrown while decoding any document propagates out of
`map`, so the whole call throws (`none`) and returns no list at all. -/
def getDocumentsForIds : List BatchEntry → Option (List ParsedDoc)
  | [] => some []
  | e :: es =>
    match e.found with
    | none => getDocumentsForIds es
    | some doc =>
      match parseDoc doc with
      | none => none
      | some p => (getDocumentsForIds es).map (fun r => p :: r)

end firestore

/-- C8: whenever the batch-fetch call returns a sequence (it throws instead
when a found document's field decode throws), that sequence has exactly one
decoded document per entry tagged `found` and nothing — no placeholder or
null entry — for entries tagged `missing`: its length is the number of found
entries, and every returned document is the decode of some entry's `found`
document. -/
theorem claim8_batch_omission (response : List BatchEntry) (docs : List ParsedDoc)
    (h : firestore.getDocumentsForIds response = some docs) :
    (docs.length = response.countP (fun e => e.found.isSome)) ∧
    ∀ p ∈ docs, ∃ e ∈ response, ∃ d, e.found = some d ∧ firestore.parseDoc d = some p := by
  induction response generalizing docs with
  | nil =>
    simp only [firestore.getDocumentsForIds, Option.some.injEq] at h
    subst h
    simp
  | cons e es ih =>
    simp only [firestore.getDocumentsForIds] at h
    rcases hf : e.found with _ | d
    · simp only [hf] at h
      obtain ⟨h1, h2⟩ := ih docs h
      constructor
      · simpa [List.countP_cons, hf] using h1
      · intro p hp
        obtain ⟨e2, he2, hd⟩ := h2 p hp
        exact ⟨e2, List.mem_cons_of_mem _ he2, hd⟩
    · simp only [hf] at h
      rcases hp : firestore.parseDoc d with _ | p0
      · simp only [hp] at h
        exact absurd h (by simp)
      · simp only [hp] at h
        rcases hr : firestore.getDocumentsForIds es with _ | rest
        · simp only [hr, Option.map] at h
          exact absurd h (by simp)
        · simp only [hr, Option.map, Option.some.injEq] at h
          subst h
          obtain ⟨h1, h2⟩ := ih rest hr
          constructor
          · simpa [List.countP_cons, hf] using h1
          · intro p hmem
            rcases List.mem_cons.mp hmem with rfl | htail
            · exact ⟨e, List.mem_cons_self e es, d, hf, hp⟩
            · obtain ⟨e2, he2, hd⟩ := h2 p htail
              exact ⟨e2, List.mem_cons_of_mem _ he2, hd⟩

/-- Witness for C8: three requested ids of which the store reports two as
found yield a returned sequence of exactly two documents. -/
theorem claim8_batch_omission_witness :
    (firestore.getDocumentsForIds
      [⟨some ⟨("projects/vocab-u-study/databases/x/documents/sets/a"), ("t1"), ("t1"),
          none⟩, none⟩,
       ⟨none, some ("projects/vocab-u-study/databases/x/documents/sets/b")⟩,
       ⟨some ⟨("projects/vocab-u-study/databases/x/documents/sets/c"), ("t2"), ("t2"),
          none⟩, none⟩]).map List.length = some 2 := by
  have h : firestore.getDocumentsForIds
      [⟨some ⟨("projects/vocab-u-study/databases/x/documents/sets/a"), ("t1"), ("t1"),
          none⟩, none⟩,
       ⟨none, some ("projects/vocab-u-study/databases/x/documents/sets/b")⟩,
       ⟨some ⟨("projects/vocab-u-study/databases/x/documents/sets/c"), ("t2"), ("t2"),
          none⟩, none⟩] =
      some [⟨firestore.lastPathSegment
              ("projects/vocab-u-study/databases/x/documents/sets/a"), [], ("t1"), ("t1")⟩,
            ⟨firestore.lastPathSegment
              ("projects/vocab-u-study/databases/x/documents/sets/c"), [], ("t2"), ("t2")⟩] := by
    simp [firestore.getDocumentsForIds, firestore.parseDoc, firestore.parseMap]
  have h2 := (claim8_batch_omission _ _ h).1
  rw [h]
  simp only [Option.map, Option.some.injEq]
  rw [h2]
  simp [List.countP_cons]
